import Mathlib

/-!
Verification of the jsondoc type-resolution and rendering engine
(cmd/jsondoc/main.go) against its natural-language specification.

The definitions below are a shallow embedding of the Go source.  Go maps are
modelled as association lists with overwrite-on-insert (`ainsert`), pointer
identity of AST nodes as a `uid : Nat` carried by every expression node, and
the mutable `JSONDoc` receiver as an explicit `DocState` threaded through the
functions.  Fallible Go functions return `Except GoErr`; a Go run-time panic
is the distinguished error `GoErr.goPanic`, and the two sources of unbounded
recursion in the Go code (the embedded-struct recursion in `appendFields` and
the drain loop in `renderTypes`) take an explicit fuel argument whose
exhaustion (`GoErr.fuelExhausted`) models divergence of the Go program.
-/

namespace Jsondoc

/-- Lookup in an association list; models reading a Go map. -/
def afind? {κ β : Type} [DecidableEq κ] (k : κ) : List (κ × β) → Option β
  | [] => none
  | (k1, v) :: rest => if k = k1 then some v else afind? k rest

/-- Insertion into an association list; models writing a Go map entry: an
existing key is overwritten in place, a new key is appended. -/
def ainsert {κ β : Type} [DecidableEq κ] (k : κ) (v : β) : List (κ × β) → List (κ × β)
  | [] => [(k, v)]
  | (k1, v1) :: rest => if k = k1 then (k, v) :: rest else (k1, v1) :: ainsert k v rest

/-- Keys of an association list; models the key set of a Go map. -/
def akeys {κ β : Type} (l : List (κ × β)) : List κ := l.map (fun p => p.fst)

mutual

/-- Go AST type expressions (`ast.Expr`), restricted to the node kinds the
program inspects.  Every node carries a `uid` modelling its address: the Go
code keys maps by `ast.Expr` interface values, which compare by pointer.
`otherExpr` stands for the remaining node kinds (`ast.StarExpr` is kept
separate because the C10 sources name pointers explicitly); the
`ast.SelectorExpr` branch of `typeLink` (cross-package hyperlinks) is not
exercised by any claim and such nodes are represented by `otherExpr`,
handled by `typeLink`'s default branch. -/
inductive Expr where
  | ident (uid : Nat) (name : String)
  | structType (uid : Nat) (fields : List GoField)
  | arrayType (uid : Nat) (elt : Expr)
  | mapType (uid : Nat) (key : Expr) (value : Expr)
  | starExpr (uid : Nat) (elt : Expr)
  | otherExpr (uid : Nat) (descr : String)

/-- A struct field (`ast.Field`): a list of names (empty for an embedded
member), the field's type, an optional tag and the attached comment text.
The tag carries the json tag value as already extracted by the Go standard
library (`strconv.Unquote` of the literal, then `reflect.StructTag.Get
"json"`); `none` models a field without a tag literal. -/
inductive GoField where
  | mk (names : List String) (typ : Expr) (tag : Option String) (comment : String)

end

/-- The address (pointer identity) of an AST node. -/
def Expr.uid : Expr → Nat
  | .ident u _ => u
  | .structType u _ => u
  | .arrayType u _ => u
  | .mapType u _ _ => u
  | .starExpr u _ => u
  | .otherExpr u _ => u

def GoField.names : GoField → List String
  | .mk ns _ _ _ => ns

def GoField.typ : GoField → Expr
  | .mk _ t _ _ => t

def GoField.tag : GoField → Option String
  | .mk _ _ tg _ => tg

def GoField.comment : GoField → String
  | .mk _ _ _ cm => cm

/-- Whether an expression is a bare identifier (`*ast.Ident`), the only node
kind the embedded-member type assertion of `appendFields` accepts. -/
def Expr.isIdent : Expr → Bool
  | .ident _ _ => true
  | _ => false

/-- Whether an expression is a struct literal (`*ast.StructType`). -/
def Expr.isStructType : Expr → Bool
  | .structType _ _ => true
  | _ => false

/-- Whether an expression is the identifier `string`, the only map key the
renderer accepts. -/
def isStringIdent : Expr → Bool
  | .ident _ n => n == "string"
  | _ => false

/-- A declaration attached to a scope object (`ast.Object.Decl`): either a
type declaration (`ast.TypeSpec`, with its name and type expression) or any
other kind of declaration (function, variable, ...). -/
inductive Decl where
  | typeSpec (name : String) (type : Expr)
  | nonType (descr : String)

/-- An `ast.Object`; `uid` models its address, used as half of the
`renderedElem` dedup key. -/
structure Object where
  uid : Nat
  decl : Decl

/-- One parsed file (`ast.File`): its scope's name-to-object table. -/
structure GoFile where
  scope : List (String × Object)

/-- A parsed package (`ast.Package`): its files. -/
structure Package where
  files : List GoFile

/-- The resolution context struct from main.go. -/
structure Context where
  path : String
  pkg : Package
  file : GoFile

/-- The immutable part of the `JSONDoc` receiver that the claims touch:
the template-alias import table and the parsed-package cache (package
loading itself is an external collaborator). -/
structure Doc where
  imports : List (String × String)
  packages : List (String × Package)

/-- The error outcomes of the embedded functions.  `notExported` is the
sentinel error of `tagToName`; `goPanic` models a Go run-time panic (failed
type assertion or nil dereference); `fuelExhausted` models divergence of the
unbounded Go recursion. -/
inductive GoErr where
  | notExported
  | identNotFound (name : String) (path : String)
  | mapKey
  | mustImport (pkgName : String) (name : String)
  | typeError (name : String)
  | notAType (name : String)
  | goPanic
  | fuelExhausted
deriving DecidableEq

/-- Models `html.EscapeString` on one character. -/
def escapeChar (c : Char) : String :=
  if c = '&' then "&amp;"
  else if c = '\'' then "&#39;"
  else if c = '<' then "&lt;"
  else if c = '>' then "&gt;"
  else if c = '"' then "&#34;"
  else String.singleton c

/-- Models `html.EscapeString`. -/
def escapeString (s : String) : String := String.join (s.data.map escapeChar)

/-- Models `strconv.Quote` on one character, for printable ASCII input. -/
def quoteChar (c : Char) : String :=
  if c = '"' then "\\\"" else if c = '\\' then "\\\\" else String.singleton c

/-- Models `strconv.Quote` for strings of printable ASCII characters (the
only inputs the documented names and tags exercise): wrap in double quotes,
escaping embedded quotes and backslashes. -/
def quote (s : String) : String := "\"" ++ String.join (s.data.map quoteChar) ++ "\""

/-- Splitting a character list at every occurrence of a separator
character. -/
def splitChar (sep : Char) : List Char → List (List Char)
  | [] => [[]]
  | c :: rest =>
    let r := splitChar sep rest
    if c = sep then [] :: r
    else
      match r with
      | [] => [[c]]
      | h :: t => (c :: h) :: t

/-- Models `strings.Split(s, sep)` for a one-character separator (the only
separators the program uses are "," and "."). -/
def goSplit (s : String) (sep : Char) : List String :=
  (splitChar sep s.data).map (fun l => ⟨l⟩)

/-- Models `strings.Replace(name, " ", "-", -1)`: replace every space with a
dash. -/
def replaceSpaceDash (s : String) : String :=
  ⟨s.data.map (fun c => if c = ' ' then '-' else c)⟩

/-- Models `strings.TrimSpace`: strip leading and trailing whitespace. -/
def goTrimSpace (s : String) : String :=
  ⟨(((s.data.dropWhile Char.isWhitespace).reverse).dropWhile Char.isWhitespace).reverse⟩

/-- Models `strings.HasSuffix`. -/
def goHasSuffix (s suf : String) : Bool :=
  suf.data.isSuffixOf s.data

/-- The `builtin` name set from main.go. -/
def builtin (name : String) : Bool :=
  ["bool", "byte", "complex128", "complex64", "error", "float32", "float64",
   "int", "int16", "int32", "int64", "int8", "rune", "string", "uint",
   "uint16", "uint32", "uint64", "uint8", "uintptr"].contains name

/-- Models `ast.IsExported`: the first character of the name is upper case. -/
def isExported (name : String) : Bool :=
  match name.data with
  | [] => false
  | c :: _ => c.isUpper

/-- Models `tagToName` from main.go.  The `tag` argument is the json tag
value already extracted by the standard library (see `GoField`). -/
def tagToName (name : String) (tag : Option String) : Except GoErr String :=
  if !isExported name then .error .notExported
  else
    match tag with
    | none => .ok (quote name)
    | some s =>
      if s == "" then .ok (quote name)
      else
        match goSplit s ',' with
        | [] => .ok (quote name)
        | f0 :: rest =>
          if f0 == "-" then .error .notExported
          else
            let suffix := rest.foldl (fun acc f => if f == "omitempty" then " (optional)" else acc) ""
            .ok (quote f0 ++ suffix)

/-- A queued item (`queueElem`): the queued `TypeSpec`'s name and type, the
resolution context and the anchor id assigned at enqueue time. -/
structure QueueElem where
  name : String
  type : Expr
  ctx : Context
  id : String

/-- A rendered table row (the `field` struct of main.go). -/
structure FieldRow where
  name : String
  type : String
  descr : String

/-- The mutable state of the `JSONDoc` receiver: the `rendered` dedup map
(keyed by declaration name and object address), the render queue, the
`links` anchor-counter table (base anchor name to a map from expression
address to its sequence number), the output buffer `b`, and the diagnostics
written to stderr. -/
structure DocState where
  rendered : List ((String × Nat) × String)
  renderQueue : List QueueElem
  links : List (String × List (Nat × Nat))
  out : String
  errs : List GoErr

/-- The loop of `findObject` over the package's files. -/
def findObjectIn (name path : String) (pkg : Package) : List GoFile → Except GoErr (Option (Object × Context))
  | [] => if builtin name then .ok none else .error (.identNotFound name path)
  | f :: fs =>
    match afind? name f.scope with
    | some o => .ok (some (o, ⟨path, pkg, f⟩))
    | none => findObjectIn name path pkg fs

/-- Models `findObject`: the first file whose scope declares `name` wins;
otherwise a recognized builtin resolves to no object and no error, and any
other name is an `identNotFound` error. -/
def findObject (name : String) (pkg : Package) (path : String) : Except GoErr (Option (Object × Context)) :=
  findObjectIn name path pkg pkg.files

/-- Models `renderLater`.  With `t = some te` (an anonymous type expression)
it always enqueues a fresh item under the base anchor derived from `name`;
with `t = none` (a named reference) it resolves the name, returns the anchor
recorded in `rendered` when present, and otherwise enqueues the declaration
once, recording its anchor.  Returns the anchor, or the empty string when
the caller must fall back to plain text. -/
def renderLater (name : String) (t : Option Expr) (c : Context) (st : DocState) : String × DocState :=
  match t with
  | some te =>
    let s := "type-" ++ replaceSpaceDash name
    let m := (afind? s st.links).getD []
    let i := m.length + 1
    let m1 := ainsert te.uid i m
    let s1 := s ++ "-" ++ Nat.repr i
    (s1, { st with links := ainsert s m1 st.links,
                   renderQueue := st.renderQueue ++ [⟨name, te, c, s1⟩] })
  | none =>
    match findObject name c.pkg c.path with
    | .error e => ("", { st with errs := st.errs ++ [e] })
    | .ok none => ("", st)
    | .ok (some (o, c1)) =>
      let s0 := (afind? (name, o.uid) st.rendered).getD ""
      if s0 != "" then (s0, st)
      else
        match o.decl with
        | .typeSpec tn tt =>
          let s := "type-" ++ name
          let m := (afind? s st.links).getD []
          let i := m.length + 1
          let m1 := ainsert tt.uid i m
          let s1 := s ++ "-" ++ Nat.repr i
          (s1, { st with links := ainsert s m1 st.links,
                         renderQueue := st.renderQueue ++ [⟨tn, tt, c1, s1⟩],
                         rendered := ainsert (name, o.uid) s1 st.rendered })
        | .nonType _ => ("", st)

/-- Models `fmt.Sprint` on an AST node reaching `typeLink`'s default branch.
`fmt.Sprint` yields an implementation-defined dump of the node; its exact
text is not part of any claim, so the model prints a simple structural tag. -/
def sprintExpr : Expr → String
  | .ident _ n => n
  | .structType _ _ => "&{struct}"
  | .arrayType _ _ => "&{array}"
  | .mapType _ _ _ => "&{map}"
  | .starExpr _ _ => "&{star}"
  | .otherExpr _ d => d

/-- Models `typeLink`: render a field type as text with hyperlink markers,
enqueueing newly discovered types via `renderLater`. -/
def typeLink (t : Expr) (c : Context) (name : String) (suffix : String) (st : DocState) : String × DocState :=
  match t with
  | .arrayType _ elt =>
    let name1 := if goHasSuffix name "-element" then name else name ++ "-element"
    let (inner, st1) := typeLink elt c name1 "s" st
    ("array" ++ suffix ++ " of " ++ inner, st1)
  | .mapType _ key value =>
    match key with
    | .ident _ kn =>
      if kn == "string" then
        let name1 := if goHasSuffix name "-element" then name else name ++ "-element"
        let (inner, st1) := typeLink value c name1 "s" st
        ("object" ++ suffix ++ " of " ++ inner, st1)
      else ("(error: only maps with string keys are supported)", st)
    | _ => ("(error: only maps with string keys are supported)", st)
  | .ident _ n =>
    let (id1, st1) := renderLater n none c st
    if id1 != "" then
      ("<a href=\"#" ++ escapeString id1 ++ "\">" ++ escapeString n ++ "</a>", st1)
    else (escapeString n, st1)
  | .structType _ _ =>
    if goHasSuffix name "-element" then
      let (id1, st1) := renderLater name (some t) c st
      ("<a href=\"#" ++ escapeString id1 ++ "\">" ++ escapeString name ++ "</a>", st1)
    else
      let (id1, st1) := renderLater ("of " ++ name) (some t) c st
      ("<a href=\"#" ++ escapeString id1 ++ "\">type of " ++ escapeString name ++ "</a>", st1)
  | .starExpr _ _ => (escapeString (sprintExpr t), st)
  | .otherExpr _ _ => (escapeString (sprintExpr t), st)

/-- The inner loop of `appendFields` over `f.Names`: resolve each display
name via `tagToName` (skipping members it reports as not exported,
propagating any other error), then append one table row with the rendered
type link and escaped trimmed comment. -/
def appendNamed (f : GoField) (c : Context) : List String → List FieldRow → DocState → Except GoErr (List FieldRow × DocState)
  | [], fields, st => .ok (fields, st)
  | n :: ns, fields, st =>
    match tagToName n f.tag with
    | .error e => if e = .notExported then appendNamed f c ns fields st else .error e
    | .ok name =>
      let (tl, st1) := typeLink f.typ c name "" st
      appendNamed f c ns (fields ++ [⟨escapeString name, tl, escapeString (goTrimSpace f.comment)⟩]) st1

/-- Models `appendFields`.  An embedded member (empty name list) must be a
bare identifier — the Go code performs the unchecked type assertion
`f.Type.(*ast.Ident)`, so any other node kind is a run-time panic.  A
resolved embedded struct declaration is flattened recursively.  The Go
recursion through the declaration table is unbounded (it diverges on an
embedding cycle), so the model consumes one unit of `fuel` per recursive
step — every terminating Go execution is reproduced by all sufficiently
large fuels, and `fuelExhausted` models divergence. -/
def appendFields : Nat → List FieldRow → List GoField → Context → DocState →
    Except GoErr (List FieldRow × DocState)
  | 0, _, _, _, _ => .error .fuelExhausted
  | fuel + 1, fields, fs, c, st =>
    match fs with
    | [] => .ok (fields, st)
    | f :: rest =>
      let emb : Except GoErr (List FieldRow × DocState) :=
        if f.names.isEmpty then
          match f.typ with
          | .ident _ n =>
            match findObject n c.pkg c.path with
            | .error e => .error e
            | .ok none => .ok (fields, st)
            | .ok (some (o, c1)) =>
              match o.decl with
              | .typeSpec _ (.structType _ gfs) => appendFields fuel fields gfs c1 st
              | .typeSpec _ _ => .ok (fields, st)
              | .nonType _ => .ok (fields, st)
          | _ => .error .goPanic
        else .ok (fields, st)
      match emb with
      | .error e => .error e
      | .ok (fields1, st1) =>
        match appendNamed f c f.names fields1 st1 with
        | .error e => .error e
        | .ok (fields2, st2) => appendFields fuel fields2 rest c st2

/-- Expansion of the `table` text/template of templates.go on a data value. -/
def tableMarkup (pfx s : String) (fields : List FieldRow) : String :=
  "\n<p>JSON " ++ pfx ++ "object" ++ s ++ " with the following fields:</p>\n<table>\n<tr>\n<th>Key name</th>\n<th>Value type</th>\n<th>Description</th>\n</tr>\n"
  ++ String.join (fields.map (fun f =>
       "\n<tr>\n<td>" ++ f.name ++ "</td>\n<td>" ++ f.type ++ "</td>\n<td>" ++ f.descr ++ "</td>\n</tr>\n"))
  ++ "\n</table>\n"

/-- The one-line notice emitted instead of an empty table. -/
def noFieldsNotice (pfx s : String) : String :=
  "<p>JSON " ++ pfx ++ "object" ++ s ++ " with no fields.</p>\n"

/-- Models `renderType1`: classify the type expression as struct, map (whose
key must be the identifier `string`), or array; any other kind renders
nothing. -/
def renderType1 (fuel : Nat) (typ : Expr) (c : Context) (pfx : String) (st : DocState) : Except GoErr DocState :=
  match typ with
  | .structType _ gfs =>
    match appendFields fuel [] gfs c st with
    | .error e => .error e
    | .ok (fields, st1) =>
      let s := if pfx != "" then "s" else ""
      if fields.length > 0 then
        .ok { st1 with out := st1.out ++ tableMarkup pfx s fields }
      else
        .ok { st1 with out := st1.out ++ noFieldsNotice pfx s }
  | .mapType _ key value =>
    match key with
    | .ident _ kn =>
      if kn == "string" then
        renderType1 fuel value c (if pfx == "" then "object of " else pfx ++ " objects of ") st
      else .error .mapKey
    | _ => .error .mapKey
  | .arrayType _ elt =>
    renderType1 fuel elt c (if pfx == "" then "array of " else pfx ++ " arrays of ") st
  | _ => .ok st

/-- Models `renderType(typ, c)`, which is `renderType1(typ.Type, c, "")`;
`tsType` is the `TypeSpec`'s type expression. -/
def renderType (fuel : Nat) (tsType : Expr) (c : Context) (st : DocState) : Except GoErr DocState :=
  renderType1 fuel tsType c "" st

/-- The drain loop of `renderTypes`: process the queue by increasing index
(FIFO), appending the anchored heading and the item's body; processing may
append further items to the same queue.  On normal exit the queue is
truncated.  `dfuel` bounds the number of iterations (the Go loop is
unbounded; exhaustion models divergence), `afuel` is passed to each item's
rendering. -/
def drainQueue (afuel : Nat) : Nat → DocState → Nat → Except GoErr DocState
  | 0, _, _ => .error .fuelExhausted
  | dfuel + 1, st, i =>
    if h : i < st.renderQueue.length then
      let q := st.renderQueue.get ⟨i, h⟩
      let st1 := { st with out := st.out ++ "<h4 id=\"" ++ escapeString q.id ++ "\">Type " ++ escapeString q.name ++ "</h4>\n" }
      match renderType afuel q.type q.ctx st1 with
      | .error e => .error e
      | .ok st2 => drainQueue afuel dfuel st2 (i + 1)
    else
      .ok { st with renderQueue := [] }

/-- The split of a possibly package-qualified name at its last dot
(`strings.LastIndexByte(name, '.')`); no dot yields the local package
name ".". -/
def splitLastDot (name : String) : String × String :=
  match (goSplit name '.').reverse with
  | [] => (".", name)
  | [_] => (".", name)
  | last :: restRev => (String.intercalate "." restRev.reverse, last)

/-- Models `renderTypeByName`: resolve the template alias, fetch the cached
package (the Go code dereferences a nil `*ast.Package` if it is absent),
resolve the root name and render its type; a name that resolves to no
object — including a builtin — is the wrapped "Type ... error", and a
non-type object is its own error. -/
def renderTypeByName (d : Doc) (afuel : Nat) (name : String) (st : DocState) : Except GoErr DocState :=
  let pn := splitLastDot name
  let path := (afind? pn.fst d.imports).getD ""
  if path == "" then .error (.mustImport pn.fst pn.snd)
  else
    match afind? path d.packages with
    | none => .error .goPanic
    | some pkg =>
      match findObject pn.snd pkg path with
      | .error _ => .error (.typeError pn.snd)
      | .ok none => .error (.typeError pn.snd)
      | .ok (some (o, c)) =>
        match o.decl with
        | .typeSpec _ tt => renderType afuel tt c st
        | .nonType _ => .error (.notAType pn.snd)

/-- Models `renderTypes`: render the root by name, then drain the render
queue. -/
def renderTypes (d : Doc) (afuel dfuel : Nat) (name : String) (st : DocState) : Except GoErr DocState :=
  match renderTypeByName d afuel name st with
  | .error e => .error e
  | .ok st1 => drainQueue afuel dfuel st1 0

/-- Whether a run outcome is a success. -/
def isOk {α : Type} : Except GoErr α → Bool
  | .ok _ => true
  | .error _ => false

/-- The empty initial state (fresh `JSONDoc` buffers and maps). -/
def st0 : DocState := ⟨[], [], [], "", []⟩

/-! Concrete input programs used by the counterexamples, failing inputs and
witnesses.  Each models a parsed Go package; uids are the (distinct)
addresses of the AST nodes and objects. -/

namespace ExA

/-- The anonymous struct site `struct{ E }` inside package exa's
`type E struct { F []struct{ E } }` — a legal, compiling Go declaration
(the cycle goes through a slice). -/
def anonE : Expr := .structType 10 [.mk [] (.ident 11 "E") none ""]

/-- The declared type of `E`. -/
def typeE : Expr := .structType 13 [.mk ["F"] (.arrayType 12 anonE) none ""]

def objE : Object := ⟨20, .typeSpec "E" typeE⟩

def fileE : GoFile := ⟨[("E", objE)]⟩

def pkgE : Package := ⟨[fileE]⟩

/-- A document that imports the package as `p`. -/
def docE : Doc := ⟨[("p", "example/exa")], [("example/exa", pkgE)]⟩

def ctxE : Context := ⟨"example/exa", pkgE, fileE⟩

end ExA

/-- The base anchor name the anonymous site of package exa is filed under:
the field display name is the quoted `"F"`, so the derived element name is
`"F"-element` and the base anchor `type-"F"-element`. -/
def exaBase : String := "type-\"F\"-element"

/-- The invariant of the diverging drain on package exa: the queue item at
the current index is always the same anonymous struct site (address 10),
and the links table holds exactly that address under the base anchor. -/
def exaInv (i : Nat) (st : DocState) : Prop :=
  ∃ pre id k, st.renderQueue = pre ++ [⟨"\"F\"-element", ExA.anonE, ExA.ctxE, id⟩] ∧
    pre.length = i ∧ st.links = [(exaBase, [(10, k)])]

namespace ExB

/-- Package exb: `type M struct { X map[int]string }` — a struct field whose
type is a map with a non-string key. -/
def typeM : Expr := .structType 30 [.mk ["X"] (.mapType 31 (.ident 32 "int") (.ident 33 "string")) none ""]

def objM : Object := ⟨40, .typeSpec "M" typeM⟩

def fileM : GoFile := ⟨[("M", objM)]⟩

def pkgM : Package := ⟨[fileM]⟩

def docM : Doc := ⟨[("m", "example/exb")], [("example/exb", pkgM)]⟩

end ExB

namespace ExC

/-- Package exc: `type S struct { X Foo }` where `Foo` is declared nowhere
and is not a builtin. -/
def typeS : Expr := .structType 50 [.mk ["X"] (.ident 51 "Foo") none ""]

def objS : Object := ⟨60, .typeSpec "S" typeS⟩

def fileS : GoFile := ⟨[("S", objS)]⟩

def pkgS : Package := ⟨[fileS]⟩

def docS : Doc := ⟨[("c", "example/exc")], [("example/exc", pkgS)]⟩

def ctxS : Context := ⟨"example/exc", pkgS, fileS⟩

end ExC

namespace ExD

/-- Package exd: `type R struct { Zzz }` — an embedded member whose
identifier is declared nowhere and is not a builtin. -/
def typeR : Expr := .structType 70 [.mk [] (.ident 71 "Zzz") none ""]

def objR : Object := ⟨80, .typeSpec "R" typeR⟩

def fileR : GoFile := ⟨[("R", objR)]⟩

def pkgR : Package := ⟨[fileR]⟩

def docR : Doc := ⟨[("d", "example/exd")], [("example/exd", pkgR)]⟩

def ctxR : Context := ⟨"example/exd", pkgR, fileR⟩

end ExD

namespace ExW

/-- Package exw, used by the witnesses: a plain named struct `T`, an empty
struct `Empty`, a function declaration `Fn`, and a non-struct type `Num`. -/
def typeT : Expr := .structType 100 [.mk ["A"] (.ident 101 "int") none ""]

def objT : Object := ⟨110, .typeSpec "T" typeT⟩

def typeEmpty : Expr := .structType 102 []

def objEmpty : Object := ⟨111, .typeSpec "Empty" typeEmpty⟩

def objFn : Object := ⟨112, .nonType "func Fn"⟩

def typeNum : Expr := .ident 103 "int"

def objNum : Object := ⟨113, .typeSpec "Num" typeNum⟩

def fileW : GoFile := ⟨[("T", objT), ("Empty", objEmpty), ("Fn", objFn), ("Num", objNum)]⟩

def pkgW : Package := ⟨[fileW]⟩

def docW : Doc := ⟨[("w", "example/exw")], [("example/exw", pkgW)]⟩

def ctxW : Context := ⟨"example/exw", pkgW, fileW⟩

end ExW

/-! Helper lemmas: association lists. -/

theorem afind?_ainsert_self {κ β : Type} [DecidableEq κ] (k : κ) (v : β) (l : List (κ × β)) :
    afind? k (ainsert k v l) = some v := by
  induction l with
  | nil => simp [ainsert, afind?]
  | cons p rest ih =>
    by_cases h : k = p.fst
    · simp [ainsert, afind?, h]
    · simp [ainsert, afind?, h, ih]

theorem afind?_ainsert_ne {κ β : Type} [DecidableEq κ] {k k1 : κ} (v : β) (l : List (κ × β))
    (h : k ≠ k1) : afind? k (ainsert k1 v l) = afind? k l := by
  induction l with
  | nil => simp [ainsert, afind?, h]
  | cons p rest ih =>
    by_cases h1 : k1 = p.fst
    · subst h1
      simp [ainsert, afind?, h]
    · by_cases h2 : k = p.fst
      · simp [ainsert, afind?, h1, h2]
      · simp [ainsert, afind?, h1, h2, ih]

theorem ainsert_length_of_none {κ β : Type} [DecidableEq κ] {k : κ} (v : β) {l : List (κ × β)}
    (h : afind? k l = none) : (ainsert k v l).length = l.length + 1 := by
  induction l with
  | nil => simp [ainsert]
  | cons p rest ih =>
    obtain ⟨k1, v1⟩ := p
    rw [afind?] at h
    by_cases hk : k = k1
    · simp [hk] at h
    · rw [if_neg hk] at h
      rw [ainsert, if_neg hk]
      simp [ih h]

theorem afind?_none_ainsert {κ β : Type} [DecidableEq κ] {k k1 : κ} (v : β) {l : List (κ × β)}
    (h : afind? k l = none) (hne : k ≠ k1) : afind? k (ainsert k1 v l) = none := by
  rw [afind?_ainsert_ne v l hne]
  exact h

/-! Helper lemmas: the decimal representation `Nat.repr` is injective,
consists of digit characters only, and is never empty.  These support the
anchor-identifier disambiguation proofs. -/

theorem toDigitsCore_append (b fuel n : Nat) (ds : List Char) :
    Nat.toDigitsCore b fuel n ds = Nat.toDigitsCore b fuel n [] ++ ds := by
  induction fuel generalizing n ds with
  | zero => simp [Nat.toDigitsCore]
  | succ fuel ih =>
    unfold Nat.toDigitsCore
    by_cases h : n / b = 0
    · simp [h]
    · simp only [h, if_false]
      rw [ih (n / b) (Nat.digitChar (n % b) :: ds), ih (n / b) (Nat.digitChar (n % b) :: [])]
      simp

/-- The numeric value of a decimal digit character. -/
def chVal (c : Char) : Nat := c.toNat - 48

/-- The numeric value of a decimal digit string. -/
def decVal (l : List Char) : Nat := l.foldl (fun a c => 10 * a + chVal c) 0

theorem chVal_digitChar (d : Nat) (h : d < 10) : chVal (Nat.digitChar d) = d := by
  interval_cases d <;> rfl

theorem decVal_append_singleton (l : List Char) (c : Char) :
    decVal (l ++ [c]) = 10 * decVal l + chVal c := by
  simp [decVal, List.foldl_append]

theorem decVal_toDigitsCore (fuel n : Nat) (h : n < fuel) :
    decVal (Nat.toDigitsCore 10 fuel n []) = n := by
  induction fuel generalizing n with
  | zero => omega
  | succ fuel ih =>
    unfold Nat.toDigitsCore
    by_cases h0 : n / 10 = 0
    · have h10 : n < 10 := by omega
      have hmod : n % 10 = n := Nat.mod_eq_of_lt h10
      simp only [h0, if_true]
      simp [decVal, hmod, chVal_digitChar n h10]
    · simp only [h0, if_false]
      rw [toDigitsCore_append, decVal_append_singleton]
      have hlt : n / 10 < fuel := by
        have h1 : n / 10 < n := Nat.div_lt_self (by omega) (by omega)
        omega
      rw [ih _ hlt, chVal_digitChar _ (Nat.mod_lt _ (by omega))]
      omega

theorem nat_repr_inj {m n : Nat} (h : Nat.repr m = Nat.repr n) : m = n := by
  have hd : Nat.toDigitsCore 10 (m + 1) m [] = Nat.toDigitsCore 10 (n + 1) n [] := by
    have := congrArg String.data h
    simpa [Nat.repr, Nat.toDigits, List.asString] using this
  have hm := decVal_toDigitsCore (m + 1) m (Nat.lt_succ_self m)
  have hn := decVal_toDigitsCore (n + 1) n (Nat.lt_succ_self n)
  rw [hd] at hm
  omega

theorem digitChar_isDigit (d : Nat) (h : d < 10) : (Nat.digitChar d).isDigit = true := by
  interval_cases d <;> rfl

theorem toDigitsCore_digits (fuel : Nat) : ∀ (n : Nat) (ds : List Char),
    (∀ c ∈ ds, c.isDigit = true) → ∀ c ∈ Nat.toDigitsCore 10 fuel n ds, c.isDigit = true := by
  induction fuel with
  | zero => intro n ds hds; simpa [Nat.toDigitsCore] using hds
  | succ fuel ih =>
    intro n ds hds
    unfold Nat.toDigitsCore
    have hdig : ∀ c ∈ Nat.digitChar (n % 10) :: ds, c.isDigit = true := by
      intro c hc
      rcases List.mem_cons.mp hc with h | h
      · subst h; exact digitChar_isDigit _ (Nat.mod_lt _ (by omega))
      · exact hds c h
    by_cases h0 : n / 10 = 0
    · simpa [h0] using hdig
    · simp only [h0, if_false]
      exact ih (n / 10) _ hdig

theorem repr_data_digits (n : Nat) : ∀ c ∈ (Nat.repr n).data, c.isDigit = true := by
  have : (Nat.repr n).data = Nat.toDigitsCore 10 (n + 1) n [] := by
    simp [Nat.repr, Nat.toDigits, List.asString]
  rw [this]
  exact toDigitsCore_digits (n + 1) n [] (by simp)

theorem repr_no_dash (n : Nat) : '-' ∉ (Nat.repr n).data := by
  intro hmem
  have := repr_data_digits n '-' hmem
  simp [Char.isDigit] at this

theorem repr_data_ne_nil (n : Nat) : (Nat.repr n).data ≠ [] := by
  have hdata : (Nat.repr n).data = Nat.toDigitsCore 10 (n + 1) n [] := by
    simp [Nat.repr, Nat.toDigits, List.asString]
  rw [hdata]
  unfold Nat.toDigitsCore
  by_cases h0 : n / 10 = 0
  · simp [h0]
  · simp only [h0, if_false]
    rw [toDigitsCore_append]
    simp

/-! Helper lemmas: anchor strings `base ++ "-" ++ Nat.repr i` determine the
base and the counter value, and are never empty. -/

theorem dashfree_split : ∀ (a : List Char) {b x y : List Char}, '-' ∉ x → '-' ∉ y →
    a ++ '-' :: x = b ++ '-' :: y → a = b ∧ x = y := by
  intro a
  induction a with
  | nil =>
    intro b x y hx hy h
    cases b with
    | nil => simpa using h
    | cons c bs =>
      simp only [List.nil_append, List.cons_append, List.cons.injEq] at h
      exact absurd (h.2 ▸ List.mem_append_right bs (List.mem_cons_self '-' y)) hx
  | cons c as ih =>
    intro b x y hx hy h
    cases b with
    | nil =>
      simp only [List.nil_append, List.cons_append, List.cons.injEq] at h
      exact absurd (h.2.symm ▸ List.mem_append_right as (List.mem_cons_self '-' x)) hy
    | cons c2 bs =>
      simp only [List.cons_append, List.cons.injEq] at h
      obtain ⟨rfl, h2⟩ := h
      obtain ⟨rfl, rfl⟩ := ih hx hy h2
      exact ⟨rfl, rfl⟩

theorem anchor_inj {b1 b2 : String} {i1 i2 : Nat}
    (h : b1 ++ "-" ++ Nat.repr i1 = b2 ++ "-" ++ Nat.repr i2) : b1 = b2 ∧ i1 = i2 := by
  have hd := congrArg String.data h
  simp only [String.data_append] at hd
  have hd2 : b1.data ++ '-' :: (Nat.repr i1).data = b2.data ++ '-' :: (Nat.repr i2).data := by
    simpa using hd
  obtain ⟨hb, hr⟩ := dashfree_split b1.data (repr_no_dash i1) (repr_no_dash i2) hd2
  refine ⟨String.ext hb, nat_repr_inj (String.ext hr)⟩

/-! Evaluation lemmas for the closed string computations of the exa run. -/

theorem tagToNameF_eval : tagToName "F" none = .ok "\"F\"" := by rfl

theorem quoteF_eval : quote "F" = "\"F\"" := by rfl

theorem hasSuffixF_eval : goHasSuffix "\"F\"" "-element" = false := by rfl

theorem appendElementF_eval : "\"F\"" ++ "-element" = "\"F\"-element" := by rfl

theorem hasSuffixFelement_eval : goHasSuffix "\"F\"-element" "-element" = true := by rfl

theorem replaceFelement_eval : replaceSpaceDash "\"F\"-element" = "\"F\"-element" := by rfl

theorem baseF_eval : "type-" ++ "\"F\"-element" = exaBase := by rfl

theorem repr_two_eval : Nat.repr 2 = "2" := by rfl

theorem repr_one_eval : Nat.repr 1 = "1" := by rfl

theorem intercalateP_eval : String.intercalate "." ["p"] = "p" := by rfl

/-- Processing the queued anonymous site of package exa from any state whose
links table holds exactly that site's address: rendering succeeds and
re-enqueues the very same site under the counter value 2. -/
theorem exa_step (afuel k : Nat) (st : DocState) (hlinks : st.links = [(exaBase, [(10, k)])]) :
    ∃ st1 : DocState,
      renderType (afuel + 3) ExA.anonE ExA.ctxE st = .ok st1 ∧
      st1.renderQueue = st.renderQueue ++ [⟨"\"F\"-element", ExA.anonE, ExA.ctxE, exaBase ++ "-" ++ Nat.repr 2⟩] ∧
      st1.links = [(exaBase, [(10, 2)])] := by
  obtain ⟨rd, q, lk, out, er⟩ := st
  simp only at hlinks
  subst hlinks
  refine ⟨_, rfl, ?_, ?_⟩ <;>
    simp [renderType, renderType1, appendFields, appendNamed, typeLink, renderLater,
        findObject, findObjectIn, afind?, ainsert, tagToName, isExported, quoteF_eval,
        hasSuffixF_eval, appendElementF_eval, hasSuffixFelement_eval, replaceFelement_eval,
        baseF_eval, repr_two_eval, tagToNameF_eval,
        ExA.anonE, ExA.typeE, ExA.ctxE, ExA.pkgE, ExA.fileE, ExA.objE,
        GoField.names, GoField.typ, GoField.tag, GoField.comment, Expr.uid, builtin]

/-- With fewer than three units of fuel the processing of the exa site runs
out of fuel (the Go recursion depth of one processing step). -/
theorem exa_step_low (afuel : Nat) (h : afuel < 3) (st : DocState) :
    renderType afuel ExA.anonE ExA.ctxE st = .error .fuelExhausted := by
  interval_cases afuel <;>
    simp [renderType, renderType1, appendFields, appendNamed, typeLink, renderLater,
        findObject, findObjectIn, afind?, ainsert, tagToNameF_eval, quoteF_eval,
        hasSuffixF_eval, appendElementF_eval, hasSuffixFelement_eval, replaceFelement_eval,
        baseF_eval, ExA.anonE, ExA.typeE, ExA.ctxE, ExA.pkgE, ExA.fileE,
        ExA.objE, GoField.names, GoField.typ, GoField.tag, GoField.comment, Expr.uid, builtin]

theorem exa_get (pre : List QueueElem) (x : QueueElem) (h : pre.length < (pre ++ [x]).length) :
    (pre ++ [x]).get ⟨pre.length, h⟩ = x := by
  simp [List.get_eq_getElem]

/-- The drain invariant of the exa run is preserved forever: no iteration
fuel makes the drain loop reach the queue's end. -/
theorem exa_drain (afuel : Nat) : ∀ dfuel i st, exaInv i st →
    isOk (drainQueue afuel dfuel st i) = false := by
  intro dfuel
  induction dfuel with
  | zero => intro i st hinv; rfl
  | succ dfuel ih =>
    intro i st hinv
    obtain ⟨pre, id, k, hq, hlen, hlk⟩ := hinv
    obtain ⟨rd, qq, lk, out, er⟩ := st
    simp only at hq hlk
    subst hq
    subst hlk
    subst hlen
    have hlt : pre.length < (pre ++ [(⟨"\"F\"-element", ExA.anonE, ExA.ctxE, id⟩ : QueueElem)]).length := by
      simp
    rw [drainQueue, dif_pos hlt]
    rw [exa_get pre _ hlt]
    dsimp only
    by_cases hf : afuel < 3
    · rw [exa_step_low afuel hf]
      rfl
    · obtain ⟨af3, rfl⟩ : ∃ m, afuel = m + 3 := ⟨afuel - 3, by omega⟩
      obtain ⟨st2, hok, hq2, hlk2⟩ := exa_step af3 k
        ⟨rd, pre ++ [⟨"\"F\"-element", ExA.anonE, ExA.ctxE, id⟩], [(exaBase, [(10, k)])],
          out ++ "<h4 id=\"" ++ escapeString id ++ "\">Type " ++ escapeString "\"F\"-element" ++ "</h4>\n", er⟩ (by rfl)
      rw [hok]
      refine ih (pre.length + 1) st2 ⟨pre ++ [⟨"\"F\"-element", ExA.anonE, ExA.ctxE, id⟩],
        exaBase ++ "-" ++ Nat.repr 2, 2, ?_, by simp, hlk2⟩
      rw [hq2]

/-- Rendering the root `p.E` of package exa enqueues the anonymous site once
under counter value 1, establishing the drain invariant. -/
theorem exa_root (afuel : Nat) :
    ∃ st1 : DocState,
      renderTypeByName ExA.docE (afuel + 2) "p.E" st0 = .ok st1 ∧
      st1.renderQueue = [⟨"\"F\"-element", ExA.anonE, ExA.ctxE, exaBase ++ "-" ++ Nat.repr 1⟩] ∧
      st1.links = [(exaBase, [(10, 1)])] := by
  refine ⟨_, rfl, ?_, ?_⟩ <;>
    simp [renderTypeByName, splitLastDot, goSplit, splitChar, afind?, renderType, renderType1,
      appendFields, appendNamed, typeLink, renderLater, findObject, findObjectIn, ainsert,
      tagToNameF_eval, quoteF_eval, hasSuffixF_eval, appendElementF_eval, hasSuffixFelement_eval,
      replaceFelement_eval, baseF_eval, repr_one_eval, intercalateP_eval,
      ExA.docE, ExA.anonE, ExA.typeE, ExA.ctxE, ExA.pkgE, ExA.fileE, ExA.objE,
      GoField.names, GoField.typ, GoField.tag, GoField.comment, Expr.uid, builtin, st0]

theorem anchor_ne_empty (b : String) (i : Nat) : (b ++ "-" ++ Nat.repr i) ≠ "" := by
  intro h
  have hd := congrArg String.data h
  simp only [String.data_append] at hd
  have hd2 : b.data ++ ['-'] ++ (Nat.repr i).data = [] := hd
  rcases List.append_eq_nil.mp hd2 with ⟨h1, h2⟩
  exact repr_data_ne_nil i h2

/-- The tag-option loop of `tagToName` selects " (optional)" exactly when an
"omitempty" option is present. -/
theorem foldl_omitempty (l : List String) : ∀ a : String,
    l.foldl (fun acc f => if f == "omitempty" then " (optional)" else acc) a =
      if "omitempty" ∈ l then " (optional)" else a := by
  induction l with
  | nil => intro a; simp
  | cons x xs ih =>
    intro a
    simp only [List.foldl_cons, List.mem_cons]
    rw [ih]
    rcases eq_or_ne x "omitempty" with hx | hx
    · subst hx
      simp
    · have hx2 : ¬"omitempty" = x := fun h => hx h.symm
      by_cases hm : "omitempty" ∈ xs <;> simp [hx, hx2, hm]

/-! The claim theorems. -/

/-- C1: the specification claims the render-queue drain loop of
`renderTypes` terminates on every input, even with circular or repeated
references, leaving the queue empty.  This is refuted by the legal Go input
of package exa (`type E struct { F []struct{ E } }`, a compiling recursive
type whose cycle passes through a slice of an anonymous struct): the drain
loop re-enqueues that anonymous struct site at every iteration, the queue
never stops growing, and no amount of fuel — neither for the loop nor for
the flattening recursion — lets the run complete. -/
theorem c1_drain_loop_diverges (afuel dfuel : Nat) :
    isOk (renderTypes ExA.docE afuel dfuel "p.E" st0) = false := by
  match afuel with
  | 0 => rfl
  | 1 => rfl
  | afuel + 2 =>
    obtain ⟨st1, hok, hq1, hlk1⟩ := exa_root afuel
    unfold renderTypes
    rw [hok]
    exact exa_drain (afuel + 2) dfuel 0 st1 ⟨[], exaBase ++ "-" ++ Nat.repr 1, 1, by rw [hq1]; rfl, rfl, hlk1⟩

/-- C2: a named declaration referenced from two different sites is queued
(and hence rendered as a table) exactly once, under a single anchor: the
first reference enqueues one Render Item and records the anchor in
`rendered` keyed by the declaration's name and object address, and the
second reference returns the identical hyperlink with the state unchanged.
Since later lookups see the same recorded anchor, every further reference
site also links to that same anchor. -/
theorem c2_named_decl_dedup (n nm nm2 sfx sfx2 : String) (u u2 : Nat) (c : Context) (st : DocState)
    (o : Object) (c1 : Context) (tn : String) (tt : Expr)
    (hfind : findObject n c.pkg c.path = .ok (some (o, c1)))
    (hdecl : o.decl = .typeSpec tn tt)
    (hnew : afind? (n, o.uid) st.rendered = none) :
    (typeLink (.ident u n) c nm sfx st).fst =
      "<a href=\"#" ++
        escapeString ("type-" ++ n ++ "-" ++ Nat.repr (((afind? ("type-" ++ n) st.links).getD []).length + 1)) ++
        "\">" ++ escapeString n ++ "</a>" ∧
    (typeLink (.ident u n) c nm sfx st).snd.renderQueue =
      st.renderQueue ++
        [⟨tn, tt, c1, "type-" ++ n ++ "-" ++ Nat.repr (((afind? ("type-" ++ n) st.links).getD []).length + 1)⟩] ∧
    typeLink (.ident u2 n) c nm2 sfx2 (typeLink (.ident u n) c nm sfx st).snd =
      ((typeLink (.ident u n) c nm sfx st).fst, (typeLink (.ident u n) c nm sfx st).snd) := by
  have hanch := anchor_ne_empty ("type-" ++ n) (((afind? ("type-" ++ n) st.links).getD []).length + 1)
  have hanchb : (("type-" ++ n ++ "-" ++ Nat.repr (((afind? ("type-" ++ n) st.links).getD []).length + 1)) != "") = true := by
    simpa using hanch
  refine ⟨?_, ?_, ?_⟩
  · simp [typeLink, renderLater, hfind, hnew, hdecl, hanchb]
  · simp [typeLink, renderLater, hfind, hnew, hdecl, hanchb]
  · simp [typeLink, renderLater, hfind, hnew, hdecl, hanchb, afind?_ainsert_self]

/-- Witness for C2: the declaration `T` of package exw referenced from two
field sites: both produce the hyperlink to `type-T-1` and only one Render
Item is queued. -/
theorem c2_named_decl_dedup_witness :
    (typeLink (.ident 500 "T") ExW.ctxW "\"A\"" "" st0).fst =
      "<a href=\"#" ++ escapeString ("type-" ++ "T" ++ "-" ++ Nat.repr 1) ++ "\">" ++ escapeString "T" ++ "</a>" ∧
    (typeLink (.ident 500 "T") ExW.ctxW "\"A\"" "" st0).snd.renderQueue =
      [⟨"T", ExW.typeT, ⟨"example/exw", ExW.pkgW, ExW.fileW⟩, "type-" ++ "T" ++ "-" ++ Nat.repr 1⟩] ∧
    typeLink (.ident 501 "T") ExW.ctxW "\"B\"" "" (typeLink (.ident 500 "T") ExW.ctxW "\"A\"" "" st0).snd =
      ((typeLink (.ident 500 "T") ExW.ctxW "\"A\"" "" st0).fst,
        (typeLink (.ident 500 "T") ExW.ctxW "\"A\"" "" st0).snd) := by
  have := c2_named_decl_dedup "T" "\"A\"" "\"B\"" "" "" 500 501 ExW.ctxW st0 ExW.objT
    ⟨"example/exw", ExW.pkgW, ExW.fileW⟩ "T" ExW.typeT (by rfl) (by rfl) (by rfl)
  simpa [st0, afind?] using this

/-- C3: two anonymous struct expressions at two distinct field sites
(distinct node addresses — the claim's premise — even when structurally
identical) are never merged: the second call enqueues its own fresh Render
Item and receives an anchor distinct from the first one, whether the two
sites share their base anchor name (the counter has strictly increased) or
not (the bases differ and the dash-free numeral suffix makes the
decomposition unique). -/
theorem c3_anon_sites_distinct (n1 n2 : String) (t1 t2 : Expr) (c1 c2 : Context) (st : DocState)
    (hne : t1.uid ≠ t2.uid)
    (h1 : afind? t1.uid ((afind? ("type-" ++ replaceSpaceDash n1) st.links).getD []) = none) :
    (renderLater n2 (some t2) c2 (renderLater n1 (some t1) c1 st).snd).fst ≠
      (renderLater n1 (some t1) c1 st).fst ∧
    (renderLater n2 (some t2) c2 (renderLater n1 (some t1) c1 st).snd).snd.renderQueue =
      st.renderQueue ++
        [⟨n1, t1, c1, (renderLater n1 (some t1) c1 st).fst⟩,
         ⟨n2, t2, c2, (renderLater n2 (some t2) c2 (renderLater n1 (some t1) c1 st).snd).fst⟩] := by
  constructor
  · by_cases hb : ("type-" ++ replaceSpaceDash n2) = ("type-" ++ replaceSpaceDash n1)
    · simp only [renderLater, hb]
      rw [afind?_ainsert_self]
      intro heq
      have h12 := (anchor_inj heq).2
      simp only [Option.getD_some] at h12
      have hlen := ainsert_length_of_none (((afind? ("type-" ++ replaceSpaceDash n1) st.links).getD []).length + 1) h1
      omega
    · simp only [renderLater]
      rw [afind?_ainsert_ne _ _ hb]
      intro heq
      exact hb (anchor_inj heq).1
  · simp [renderLater]

/-- Witness for C3: two structurally identical empty anonymous structs at
addresses 601 and 602, both filed under the base name `A-element`, receive
distinct anchors and two queued Render Items. -/
theorem c3_anon_sites_distinct_witness :
    (renderLater "A-element" (some (.structType 602 [])) ExW.ctxW
        (renderLater "A-element" (some (.structType 601 [])) ExW.ctxW st0).snd).fst ≠
      (renderLater "A-element" (some (.structType 601 [])) ExW.ctxW st0).fst ∧
    (renderLater "A-element" (some (.structType 602 [])) ExW.ctxW
        (renderLater "A-element" (some (.structType 601 [])) ExW.ctxW st0).snd).snd.renderQueue =
      st0.renderQueue ++
        [⟨"A-element", .structType 601 [], ExW.ctxW,
           (renderLater "A-element" (some (.structType 601 [])) ExW.ctxW st0).fst⟩,
         ⟨"A-element", .structType 602 [], ExW.ctxW,
           (renderLater "A-element" (some (.structType 602 [])) ExW.ctxW
             (renderLater "A-element" (some (.structType 601 [])) ExW.ctxW st0).snd).fst⟩] :=
  c3_anon_sites_distinct "A-element" "A-element" (.structType 601 []) (.structType 602 []) ExW.ctxW ExW.ctxW st0
    (by decide) (by rfl)

/-- Counterexample for C4: the claim says a non-string-keyed map fails the
entire run even when it occurs as a struct field's type; but on package exb
(`type M struct { X map[int]string }`) the run SUCCEEDS, rendering the
field's type column as the literal inline error text. -/
theorem c4_counterexample :
    renderTypes ExB.docM 3 3 "m.M" st0 =
      .ok ⟨[], [], [],
        "\n<p>JSON object with the following fields:</p>\n<table>\n<tr>\n<th>Key name</th>\n<th>Value type</th>\n<th>Description</th>\n</tr>\n\n<tr>\n<td>&#34;X&#34;</td>\n<td>(error: only maps with string keys are supported)</td>\n<td></td>\n</tr>\n\n</table>\n",
        []⟩ := by rfl

/-- C4 (amended): a map whose key is not the identifier `string` aborts the
run with the map-key error when reached through `renderType1` (the root
type or a queued item's body, including below array and map nesting), and
is never silently rendered as string-keyed anywhere: as a struct field's
type, `typeLink` renders the literal error text in place and the run
continues. -/
theorem c4_map_key_locality (fuel u : Nat) (key value : Expr) (c : Context) (pfx nm sfx : String) (st : DocState)
    (hk : isStringIdent key = false) :
    renderType1 fuel (.mapType u key value) c pfx st = .error .mapKey ∧
    typeLink (.mapType u key value) c nm sfx st =
      ("(error: only maps with string keys are supported)", st) := by
  cases key <;> simp_all [renderType1, typeLink, isStringIdent]

/-- Witness for C4: a `map[int]string` node. -/
theorem c4_map_key_locality_witness :
    renderType1 2 (.mapType 400 (.ident 401 "int") (.ident 402 "string")) ExW.ctxW "" st0 = .error .mapKey ∧
    typeLink (.mapType 400 (.ident 401 "int") (.ident 402 "string")) ExW.ctxW "\"X\"" "" st0 =
      ("(error: only maps with string keys are supported)", st0) :=
  c4_map_key_locality 2 400 (.ident 401 "int") (.ident 402 "string") ExW.ctxW "" "\"X\"" "" st0 (by rfl)

/-- Counterexample for C5: the claim says every NameNotFound aborts the run,
including one hit at a field's type reference; but on package exc
(`type S struct { X Foo }` with `Foo` undeclared and not builtin) the run
SUCCEEDS: the diagnostic is logged to stderr and the field's type renders
as plain text `Foo`. -/
theorem c5_counterexample :
    renderTypes ExC.docS 3 3 "c.S" st0 =
      .ok ⟨[], [], [],
        "\n<p>JSON object with the following fields:</p>\n<table>\n<tr>\n<th>Key name</th>\n<th>Value type</th>\n<th>Description</th>\n</tr>\n\n<tr>\n<td>&#34;X&#34;</td>\n<td>Foo</td>\n<td></td>\n</tr>\n\n</table>\n",
        [.identNotFound "Foo" "example/exc"]⟩ := by rfl

/-- C5 (amended): a NameNotFound error aborts the entire run when the
identifier is the root directive's name (wrapped as the "Type ... error")
or an embedded member; but a plain field type reference is a
recovered-and-continue path: `renderLater` logs the diagnostic, returns no
anchor, and the field renders as plain escaped text. -/
theorem c5_name_not_found_paths (dfuel : Nat) (fuel u : Nat) (d : Doc)
    (rootName pn rn path n nm sfx : String) (pkg : Package)
    (fields : List FieldRow) (tg : Option String) (cm : String) (rest : List GoField)
    (c : Context) (st : DocState) (e : GoErr) :
    (splitLastDot rootName = (pn, rn) → afind? pn d.imports = some path → (path == "") = false →
      afind? path d.packages = some pkg → findObject rn pkg path = .error e →
      renderTypes d fuel dfuel rootName st = .error (.typeError rn)) ∧
    (findObject n c.pkg c.path = .error e →
      appendFields (fuel + 1) fields (.mk [] (.ident u n) tg cm :: rest) c st = .error e) ∧
    (findObject n c.pkg c.path = .error e →
      typeLink (.ident u n) c nm sfx st = (escapeString n, { st with errs := st.errs ++ [e] })) := by
  refine ⟨fun hsp him hpe hpk hf => ?_, fun hf => ?_, fun hf => ?_⟩
  · simp [renderTypes, renderTypeByName, hsp, him, hpe, hpk, hf]
  · simp [appendFields, appendNamed, GoField.names, GoField.typ, hf]
  · simp [typeLink, renderLater, hf]

/-- Witness for C5: on package exc the unknown root `c.Bar` and the unknown
embedded member `Foo` abort, while the unknown field type `Foo` renders as
plain text with the diagnostic logged. -/
theorem c5_name_not_found_paths_witness :
    renderTypes ExC.docS 2 5 "c.Bar" st0 = .error (.typeError "Bar") ∧
    appendFields 2 [] [.mk [] (.ident 700 "Foo") none ""] ExC.ctxS st0 =
      .error (.identNotFound "Foo" "example/exc") ∧
    typeLink (.ident 701 "Foo") ExC.ctxS "\"X\"" "" st0 =
      (escapeString "Foo", { st0 with errs := st0.errs ++ [.identNotFound "Foo" "example/exc"] }) :=
  ⟨(c5_name_not_found_paths 5 2 700 ExC.docS "c.Bar" "c" "Bar" "example/exc" "Foo" "\"X\"" "" ExC.pkgS [] none "" []
      ExC.ctxS st0 (.identNotFound "Bar" "example/exc")).1 (by rfl) (by rfl) (by rfl) (by rfl) (by rfl),
   (c5_name_not_found_paths 5 1 700 ExC.docS "c.Bar" "c" "Bar" "example/exc" "Foo" "\"X\"" "" ExC.pkgS [] none "" []
      ExC.ctxS st0 (.identNotFound "Foo" "example/exc")).2.1 (by rfl),
   (c5_name_not_found_paths 5 1 701 ExC.docS "c.Bar" "c" "Bar" "example/exc" "Foo" "\"X\"" "" ExC.pkgS [] none "" []
      ExC.ctxS st0 (.identNotFound "Foo" "example/exc")).2.2 (by rfl)⟩

/-- Counterexample for C6: the claim says an embedded member whose type
cannot be resolved is skipped rather than erroring; but on package exd
(`type R struct { Zzz }` with `Zzz` unresolvable) flattening returns the
NameNotFound error, which aborts the run. -/
theorem c6_counterexample :
    appendFields 2 [] [.mk [] (.ident 71 "Zzz") none ""] ExD.ctxR st0 =
      .error (.identNotFound "Zzz" "example/exd") := by rfl

/-- C6 (amended): during flattening an embedded member that resolves to a
recognized builtin (no object), to a non-type declaration, or to a type
declaration whose type is not a struct is skipped, contributing no fields;
but an embedded identifier that is not found at all aborts flattening with
the resolution error. -/
theorem c6_embedded_skip_rules (fuel u : Nat) (fields : List FieldRow) (n : String)
    (tg : Option String) (cm : String) (rest : List GoField) (c : Context) (st : DocState) :
    (findObject n c.pkg c.path = .ok none →
       appendFields (fuel + 1) fields (.mk [] (.ident u n) tg cm :: rest) c st =
         appendFields fuel fields rest c st) ∧
    (∀ o c1 ds, findObject n c.pkg c.path = .ok (some (o, c1)) → o.decl = .nonType ds →
       appendFields (fuel + 1) fields (.mk [] (.ident u n) tg cm :: rest) c st =
         appendFields fuel fields rest c st) ∧
    (∀ o c1 tn tt, findObject n c.pkg c.path = .ok (some (o, c1)) → o.decl = .typeSpec tn tt →
       tt.isStructType = false →
       appendFields (fuel + 1) fields (.mk [] (.ident u n) tg cm :: rest) c st =
         appendFields fuel fields rest c st) ∧
    (∀ e, findObject n c.pkg c.path = .error e →
       appendFields (fuel + 1) fields (.mk [] (.ident u n) tg cm :: rest) c st = .error e) := by
  refine ⟨fun h => ?_, fun o c1 ds h hd => ?_, fun o c1 tn tt h hd hs => ?_, fun e h => ?_⟩
  · simp [appendFields, appendNamed, GoField.names, GoField.typ, h]
  · simp [appendFields, appendNamed, GoField.names, GoField.typ, h, hd]
  · cases tt <;> simp_all [appendFields, appendNamed, GoField.names, GoField.typ, Expr.isStructType]
  · simp [appendFields, appendNamed, GoField.names, GoField.typ, h]

/-- Witness for C6: in package exw, embedding the builtin `int`, the
function declaration `Fn`, and the non-struct type `Num` are all skipped,
while embedding the unknown `Qqq` errors. -/
theorem c6_embedded_skip_rules_witness :
    (appendFields 2 [] [.mk [] (.ident 300 "int") none ""] ExW.ctxW st0 =
       appendFields 1 [] [] ExW.ctxW st0) ∧
    (appendFields 2 [] [.mk [] (.ident 301 "Fn") none ""] ExW.ctxW st0 =
       appendFields 1 [] [] ExW.ctxW st0) ∧
    (appendFields 2 [] [.mk [] (.ident 302 "Num") none ""] ExW.ctxW st0 =
       appendFields 1 [] [] ExW.ctxW st0) ∧
    (appendFields 2 [] [.mk [] (.ident 303 "Qqq") none ""] ExW.ctxW st0 =
       .error (.identNotFound "Qqq" "example/exw")) :=
  ⟨(c6_embedded_skip_rules 1 300 [] "int" none "" [] ExW.ctxW st0).1 (by rfl),
   (c6_embedded_skip_rules 1 301 [] "Fn" none "" [] ExW.ctxW st0).2.1 ExW.objFn
     ⟨"example/exw", ExW.pkgW, ExW.fileW⟩ "func Fn" (by rfl) (by rfl),
   (c6_embedded_skip_rules 1 302 [] "Num" none "" [] ExW.ctxW st0).2.2.1 ExW.objNum
     ⟨"example/exw", ExW.pkgW, ExW.fileW⟩ "Num" ExW.typeNum (by rfl) (by rfl) (by rfl),
   (c6_embedded_skip_rules 1 303 [] "Qqq" none "" [] ExW.ctxW st0).2.2.2
     (.identNotFound "Qqq" "example/exw") (by rfl)⟩

/-- C7: a struct whose computed visible field list is empty renders exactly
the one-line "no fields" notice — the table branch, and with it any
zero-row table, is unreachable. -/
theorem c7_empty_struct_notice (fuel u : Nat) (gfs : List GoField) (c : Context)
    (pfx : String) (st st1 : DocState)
    (h : appendFields fuel [] gfs c st = .ok ([], st1)) :
    renderType1 fuel (.structType u gfs) c pfx st =
      .ok { st1 with out := st1.out ++ noFieldsNotice pfx (if pfx != "" then "s" else "") } := by
  simp [renderType1, h]

/-- Witness for C7: a struct whose only member `x` is unexported (all
members suppressed) renders the notice. -/
theorem c7_empty_struct_notice_witness :
    renderType1 2 (.structType 200 [.mk ["x"] (.ident 201 "int") none ""]) ExW.ctxW "" st0 =
      .ok { st0 with out := st0.out ++ noFieldsNotice "" (if "" != "" then "s" else "") } :=
  c7_empty_struct_notice 2 200 [.mk ["x"] (.ident 201 "int") none ""] ExW.ctxW "" st0 st0 (by rfl)

/-- Counterexample for C8: for the member `Name` tagged `json:",omitempty"`
the resolver returns the quoted EMPTY first component plus the optional
suffix — not the claimed fallback to the quoted member name. -/
theorem c8_counterexample :
    tagToName "Name" (some ",omitempty") = .ok "\"\" (optional)" ∧
    ("\"\" (optional)" == "\"Name\" (optional)") = false := ⟨by rfl, by rfl⟩

/-- C8 (amended): for an exported member whose json tag's first component is
the empty string, the display name is the quoted empty component — there is
no fallback to the member name — while an "omitempty" option still appends
the " (optional)" suffix. -/
theorem c8_empty_component_no_fallback (name s : String) (rest : List String)
    (hexp : isExported name = true)
    (hsplit : goSplit s ',' = "" :: rest)
    (homit : "omitempty" ∈ rest) :
    tagToName name (some s) = .ok ("\"\"" ++ " (optional)") := by
  have hne : (s == "") = false := by
    rw [beq_eq_false_iff_ne]
    intro hs
    subst hs
    rw [show goSplit "" ',' = [""] from rfl] at hsplit
    simp only [List.cons.injEq] at hsplit
    rw [← hsplit.2] at homit
    simp at homit
  simp only [tagToName, hexp, Bool.not_true, Bool.false_eq_true, if_false, hne, hsplit]
  rw [foldl_omitempty]
  simp [homit]
  rfl

/-- Witness for C8 (amended): the `json:",omitempty"` tag on member `Name`. -/
theorem c8_empty_component_no_fallback_witness :
    tagToName "Name" (some ",omitempty") = .ok ("\"\"" ++ " (optional)") :=
  c8_empty_component_no_fallback "Name" ",omitempty" ["omitempty"] rfl rfl (by simp)

/-- Counterexample for C9: the very first occurrence of the base anchor name
`type-X` already receives the numeric suffix `-1` — it is not the claimed
bare base name. -/
theorem c9_counterexample :
    (renderLater "X" (some (.structType 300 [])) ExW.ctxW st0).fst = "type-X-1" ∧
    ("type-X-1" == "type-X") = false := ⟨by rfl, by rfl⟩

/-- C9 (amended): anchors are disambiguated by a monotonically increasing
per-base-name counter seeded at first use, but EVERY occurrence carries a
numeric suffix: an expression not yet recorded under its base receives the
suffix `-(count+1)`, the counter then increments, and the new anchor
differs from every anchor previously issued for that base (suffixes `-1`
... `-count`); in particular the first occurrence receives `-1`, never the
bare base name. -/
theorem c9_anchor_counter (name : String) (t : Expr) (c : Context) (st : DocState)
    (hfresh : afind? t.uid ((afind? ("type-" ++ replaceSpaceDash name) st.links).getD []) = none) :
    (renderLater name (some t) c st).fst =
      ("type-" ++ replaceSpaceDash name) ++ "-" ++
        Nat.repr (((afind? ("type-" ++ replaceSpaceDash name) st.links).getD []).length + 1) ∧
    ((afind? ("type-" ++ replaceSpaceDash name) (renderLater name (some t) c st).snd.links).getD []).length =
      ((afind? ("type-" ++ replaceSpaceDash name) st.links).getD []).length + 1 ∧
    (∀ j ≤ ((afind? ("type-" ++ replaceSpaceDash name) st.links).getD []).length,
      (renderLater name (some t) c st).fst ≠ ("type-" ++ replaceSpaceDash name) ++ "-" ++ Nat.repr j) := by
  refine ⟨by simp [renderLater], ?_, ?_⟩
  · simp only [renderLater]
    rw [afind?_ainsert_self]
    simp [ainsert_length_of_none _ hfresh]
  · intro j hj heq
    simp only [renderLater] at heq
    have := (anchor_inj heq).2
    omega

/-- Witness for C9 (amended): the base `type-of-Msg` (with the space of the
derived name replaced) at its first use: counter seeded, anchor `-1`. -/
theorem c9_anchor_counter_witness :
    (renderLater "of Msg" (some (.structType 310 [])) ExW.ctxW st0).fst =
      "type-" ++ "of-Msg" ++ "-" ++ Nat.repr 1 ∧
    ((afind? ("type-" ++ "of-Msg") (renderLater "of Msg" (some (.structType 310 [])) ExW.ctxW st0).snd.links).getD []).length = 1 ∧
    (∀ j ≤ 0, (renderLater "of Msg" (some (.structType 310 [])) ExW.ctxW st0).fst ≠
      "type-" ++ "of-Msg" ++ "-" ++ Nat.repr j) := by
  have := c9_anchor_counter "of Msg" (.structType 310 []) ExW.ctxW st0 (by rfl)
  simpa [show replaceSpaceDash "of Msg" = "of-Msg" from rfl, st0, afind?] using this

/-- C10: an embedded (anonymous) member whose type expression is not a bare
identifier — a pointer, a package-qualified type, or any other node — makes
`appendFields` perform the unchecked type assertion `f.Type.(*ast.Ident)`
and panic, instead of returning an ordinary error or skipping the member. -/
theorem c10_embedded_non_ident_panics (fuel : Nat) (fields : List FieldRow)
    (f : GoField) (rest : List GoField) (c : Context) (st : DocState)
    (hemb : f.names = []) (hni : f.typ.isIdent = false) :
    appendFields (fuel + 1) fields (f :: rest) c st = .error .goPanic := by
  obtain ⟨ns, t, tg, cm⟩ := f
  simp only [GoField.names] at hemb
  subst hemb
  simp only [GoField.typ] at hni
  cases t <;> simp_all [appendFields, GoField.names, GoField.typ, Expr.isIdent]

/-- Witness for C10: an embedded pointer member (`ast.StarExpr`) panics. -/
theorem c10_embedded_non_ident_panics_witness :
    appendFields 1 [] [.mk [] (.starExpr 0 (.ident 1 "T")) none ""] ExW.ctxW st0 = .error .goPanic :=
  c10_embedded_non_ident_panics 0 [] (.mk [] (.starExpr 0 (.ident 1 "T")) none "") [] ExW.ctxW st0 rfl rfl

end Jsondoc
